import Mathlib

/-!
Shallow embedding of the porcentagem-api-core services (NestJS + Prisma).

The four entity services (users, categories, bank accounts, transactions)
and the categories controller are translated from the TypeScript source.
The Prisma gateway is modelled as a pure state (DB) threaded through the
service functions; NestJS HTTP exceptions become an error type (AppError)
and each try/catch block becomes the corresponding match on results.
Server-generated data (UUIDs, bcrypt salts, timestamps) enter as explicit
parameters, standing for the randomness of the environment.
-/

namespace Porcentagem

/-- Modelled from the spec: the bcrypt library is an external dependency
(not part of this repository). A digest is modelled as an ideal salted
one-way hash: the digest records the salt and determines the hashed
plaintext exactly, and a value that was never produced by hashing is a
raw string, which bcrypt comparison rejects. The stored password column
is a TypeScript string holding either a digest or (when the code skips
hashing) the raw plaintext; the inductive keeps that distinction. -/
inductive StoredPassword where
  | raw (s : String)
  | hashed (salt : Nat) (plain : String)
deriving DecidableEq, Repr

/-- Model of bcrypt.hash(password, cost) with an explicit salt parameter
standing for the internal randomness. -/
def bcryptHash (salt : Nat) (plain : String) : StoredPassword :=
  .hashed salt plain

/-- Model of bcrypt.compare(plain, digest): true exactly when the digest
was produced by hashing the same plaintext; a non-digest value never
compares equal. -/
def bcryptCompare (plain : String) : StoredPassword → Bool
  | .raw _ => false
  | .hashed _ p => p == plain

/-- Row of the users table (prisma/schema.prisma, model User). -/
structure User where
  id : String
  email : String
  name : String
  password : StoredPassword
  createdAt : Nat
  updatedAt : Nat
deriving DecidableEq, Repr

/-- The user view selected by the users service: id, name, email and the
timestamps, never the password (the select block of each query). -/
structure UserPublic where
  id : String
  name : String
  email : String
  createdAt : Nat
  updatedAt : Nat
deriving DecidableEq, Repr

/-- Row of the categories table (prisma/schema.prisma, model Category). -/
structure Category where
  id : String
  name : String
  color : String
  description : String
  createdAt : Nat
  updatedAt : Nat
deriving DecidableEq, Repr

/-- Row of the bank_accounts table (prisma/schema.prisma, model
BankAccount). -/
structure BankAccount where
  id : String
  userId : String
  name : String
  apiToken : String
  accountStatus : String
  connectionStatus : String
  createdAt : Nat
  updatedAt : Nat
deriving DecidableEq, Repr

/-- Row of the transactions table (prisma/schema.prisma, model
Transaction). Dates are modelled as natural numbers; the conversion of
the incoming ISO string by new Date(...) at the service boundary is the
identity on this temporal value. -/
structure Transaction where
  id : String
  bankAccountId : String
  date : Nat
  amount : Int
  type : String
  categoryId : String
  createdAt : Nat
  updatedAt : Nat
deriving DecidableEq, Repr

/-- A transaction together with its joined category (the include block
of the transaction queries); the relation may dangle in the model, hence
the Option. -/
structure TransactionWithCategory where
  txn : Transaction
  category : Option Category
deriving DecidableEq, Repr

/-- The durable state owned by the Prisma gateway: the four row sets. -/
structure DB where
  users : List User
  categories : List Category
  bankAccounts : List BankAccount
  transactions : List Transaction
deriving DecidableEq, Repr

/-- The NestJS exceptions thrown by the services and controllers, plus
the raw Prisma errors that escape a service that has no try/catch. -/
inductive AppError where
  | notFound (msg : String)
  | unprocessableEntity (msg : String)
  | unauthorized (msg : String)
  | internalServerError (msg : String)
  | prismaKnown (code : String)
deriving DecidableEq, Repr

/-- CreateUserDto: name, email and the plaintext password. -/
structure CreateUserDto where
  name : String
  email : String
  password : String
deriving DecidableEq, Repr

/-- UpdateUserDto: every field optional. -/
structure UpdateUserDto where
  name : Option String := none
  email : Option String := none
  password : Option String := none
deriving DecidableEq, Repr

/-- The select block used by every user query: project the row to the
password-free view. -/
def selectPublic (u : User) : UserPublic :=
  { id := u.id, name := u.name, email := u.email
    createdAt := u.createdAt, updatedAt := u.updatedAt }

namespace UsersService

/-- UsersService.hashPassword: bcrypt.hash(password, 10) with the salt
made explicit; the primitive is total in the model, so the
InternalServerErrorException branch of the wrapper does not arise. -/
def hashPassword (salt : Nat) (password : String) : StoredPassword :=
  bcryptHash salt password

/-- UsersService.create: hash the password, insert the row (the store
signals P2002 when the unique email constraint is violated, which the
catch block maps to UnprocessableEntityException); on success return the
selected password-free view. A failed call leaves the store unchanged. -/
def create (db : DB) (dto : CreateUserDto) (freshId : String)
    (salt : Nat) (now : Nat) : (Except AppError UserPublic) × DB :=
  let hashedPassword := hashPassword salt dto.password
  if db.users.any (fun u => u.email == dto.email) then
    (Except.error (.unprocessableEntity "Email is already in use"), db)
  else
    let u : User :=
      { id := freshId, email := dto.email, name := dto.name
        password := hashedPassword, createdAt := now, updatedAt := now }
    (Except.ok (selectPublic u), { db with users := db.users ++ [u] })

/-- UsersService.findAll: page through the users with the password-free
select. -/
def findAll (db : DB) (skip take : Nat) : List UserPublic :=
  ((db.users.drop skip).take take).map selectPublic

/-- UsersService.findOne: findUnique by id with the password-free
select; NotFoundException when no row matches. -/
def findOne (db : DB) (id : String) : Except AppError UserPublic :=
  match db.users.find? (fun u => u.id == id) with
  | none => .error (.notFound ("User with ID " ++ id ++ " not found"))
  | some u => .ok (selectPublic u)

/-- UsersService.findOneByEmail: findUnique by email with the
password-free select; NotFoundException when no row matches. -/
def findOneByEmail (db : DB) (email : String) : Except AppError UserPublic :=
  match db.users.find? (fun u => u.email == email) with
  | none => .error (.notFound ("User with email " ++ email ++ " not found"))
  | some u => .ok (selectPublic u)

/-- The data object built by UsersService.update: the object spread
carries every supplied field, and the truthiness guard replaces the
password by its hash only when the supplied password is nonempty (an
empty string is falsy in TypeScript, so it is carried verbatim). -/
def updateData (dto : UpdateUserDto) (salt : Nat) : Option StoredPassword :=
  match dto.password with
  | none => none
  | some p => if p == "" then some (.raw p) else some (hashPassword salt p)

/-- Apply the update data to a stored user row (the store stamps
updatedAt). -/
def applyUserUpdate (dto : UpdateUserDto) (salt : Nat) (now : Nat)
    (u : User) : User :=
  { u with
    name := dto.name.getD u.name
    email := dto.email.getD u.email
    password := (updateData dto salt).getD u.password
    updatedAt := now }

/-- The unique email constraint checked by the store on an update: the
new email collides with a different row. -/
def newEmailTaken (db : DB) (id : String) (dto : UpdateUserDto) : Bool :=
  match dto.email with
  | none => false
  | some e => db.users.any (fun v => v.id != id && v.email == e)

/-- The users table after the store update keyed by id. -/
def updatedUsers (db : DB) (id : String) (dto : UpdateUserDto)
    (salt now : Nat) : List User :=
  db.users.map (fun u =>
    if u.id == id then applyUserUpdate dto salt now u else u)

/-- UsersService.update: existence check via findOne first
(NotFoundException is re-raised); then the store update, where a P2002
on the unique email constraint is mapped to
UnprocessableEntityException; on success return the password-free view.
A failed call leaves the store unchanged. -/
def update (db : DB) (id : String) (dto : UpdateUserDto)
    (salt : Nat) (now : Nat) : (Except AppError UserPublic) × DB :=
  match findOne db id with
  | .error e => (.error e, db)
  | .ok _ =>
    if newEmailTaken db id dto then
      (Except.error (.unprocessableEntity "Email is already in use"), db)
    else
      match (updatedUsers db id dto salt now).find? (fun u => u.id == id) with
      | none => (Except.error (.internalServerError "Error updating user"), db)
      | some u =>
        (Except.ok (selectPublic u),
          { db with users := updatedUsers db id dto salt now })

/-- UsersService.remove: existence check via findOne, then delete. -/
def remove (db : DB) (id : String) : (Except AppError Unit) × DB :=
  match findOne db id with
  | .error e => (.error e, db)
  | .ok _ =>
    (Except.ok (), { db with users := db.users.filter (fun u => u.id != id) })

/-- UsersService.validateCredentials: findUnique by email selecting the
password; a lookup miss throws UnauthorizedException. The password
comparison runs inside a try block whose catch wraps every error into
InternalServerErrorException; the UnauthorizedException thrown on a
mismatch is itself inside that try block, so a mismatch surfaces as
InternalServerErrorException. On success the password is destructured
away before returning. -/
def validateCredentials (db : DB) (email password : String) :
    Except AppError UserPublic :=
  match db.users.find? (fun u => u.email == email) with
  | none => .error (.unauthorized "Invalid credentials")
  | some user =>
    if bcryptCompare password user.password then
      .ok (selectPublic user)
    else
      .error (.internalServerError "Error validating credentials")

end UsersService

/-- CreateCategoryDto: name, color, description. -/
structure CreateCategoryDto where
  name : String
  color : String
  description : String
deriving DecidableEq, Repr

/-- UpdateCategoryDto: every field optional. -/
structure UpdateCategoryDto where
  name : Option String := none
  color : Option String := none
  description : Option String := none
deriving DecidableEq, Repr

namespace CategoriesService

/-- CategoriesService.create: insert the row; the categories table has
no uniqueness constraint, so the P2002 branch of the catch block does
not arise in the model. -/
def create (db : DB) (dto : CreateCategoryDto) (freshId : String)
    (now : Nat) : (Except AppError Category) × DB :=
  let c : Category :=
    { id := freshId, name := dto.name, color := dto.color
      description := dto.description, createdAt := now, updatedAt := now }
  (Except.ok c, { db with categories := db.categories ++ [c] })

/-- CategoriesService.findAll: page through the categories. -/
def findAll (db : DB) (skip take : Nat) : List Category :=
  (db.categories.drop skip).take take

/-- CategoriesService.findOne: findUnique by id; NotFoundException when
no row matches, re-raised by the catch block. -/
def findOne (db : DB) (id : String) : Except AppError Category :=
  match db.categories.find? (fun c => c.id == id) with
  | none => .error (.notFound ("Category with ID " ++ id ++ " not found"))
  | some c => .ok c

/-- Apply the update data to a stored category row. -/
def applyCategoryUpdate (dto : UpdateCategoryDto) (now : Nat)
    (c : Category) : Category :=
  { c with
    name := dto.name.getD c.name
    color := dto.color.getD c.color
    description := dto.description.getD c.description
    updatedAt := now }

/-- The categories table after the store update keyed by id. -/
def updatedCategories (db : DB) (id : String) (dto : UpdateCategoryDto)
    (now : Nat) : List Category :=
  db.categories.map (fun c =>
    if c.id == id then applyCategoryUpdate dto now c else c)

/-- CategoriesService.update: existence check via findOne first
(NotFoundException is re-raised); then the store update. -/
def update (db : DB) (id : String) (dto : UpdateCategoryDto)
    (now : Nat) : (Except AppError Category) × DB :=
  match findOne db id with
  | .error e => (.error e, db)
  | .ok _ =>
    match (updatedCategories db id dto now).find? (fun c => c.id == id) with
    | none =>
      (Except.error (.internalServerError "Error updating category"), db)
    | some c =>
      (Except.ok c, { db with categories := updatedCategories db id dto now })

/-- CategoriesService.remove: existence check via findOne, then
delete. -/
def remove (db : DB) (id : String) : (Except AppError Unit) × DB :=
  match findOne db id with
  | .error e => (.error e, db)
  | .ok _ =>
    (Except.ok (),
      { db with categories := db.categories.filter (fun c => c.id != id) })

end CategoriesService

namespace CategoriesController

/-- CategoriesController.findOne: the catch block catches every error
thrown by the service, including NotFoundException, and throws
InternalServerErrorException in its place. -/
def findOne (db : DB) (id : String) : Except AppError Category :=
  match CategoriesService.findOne db id with
  | .ok c => .ok c
  | .error _ => .error (.internalServerError "Error finding category")

/-- CategoriesController.update: same catch-all wrapping as findOne. -/
def update (db : DB) (id : String) (dto : UpdateCategoryDto)
    (now : Nat) : (Except AppError Category) × DB :=
  match CategoriesService.update db id dto now with
  | (.ok c, db2) => (.ok c, db2)
  | (.error _, db2) =>
    (Except.error (.internalServerError "Error updating category"), db2)

/-- CategoriesController.remove: same catch-all wrapping as findOne. -/
def remove (db : DB) (id : String) : (Except AppError Unit) × DB :=
  match CategoriesService.remove db id with
  | (.ok u, db2) => (.ok u, db2)
  | (.error _, db2) =>
    (Except.error (.internalServerError "Error deleting category"), db2)

end CategoriesController

/-- CreateBankAccountDto fields (userId is passed separately). -/
structure CreateBankAccountDto where
  name : String
  apiToken : String
  accountStatus : String
  connectionStatus : String
deriving DecidableEq, Repr

/-- UpdateBankAccountDto: every field optional. -/
structure UpdateBankAccountDto where
  name : Option String := none
  apiToken : Option String := none
  accountStatus : Option String := none
  connectionStatus : Option String := none
deriving DecidableEq, Repr

namespace BankAccountService

/-- BankAccountService.create: insert the row with the owning userId
attached. The service has no try/catch and the table no uniqueness
constraint. -/
def create (db : DB) (userId : String) (dto : CreateBankAccountDto)
    (freshId : String) (now : Nat) : (Except AppError BankAccount) × DB :=
  let a : BankAccount :=
    { id := freshId, userId := userId, name := dto.name
      apiToken := dto.apiToken, accountStatus := dto.accountStatus
      connectionStatus := dto.connectionStatus
      createdAt := now, updatedAt := now }
  (Except.ok a, { db with bankAccounts := db.bankAccounts ++ [a] })

/-- BankAccountService.findAll: all accounts of the given user. -/
def findAll (db : DB) (userId : String) : List BankAccount :=
  db.bankAccounts.filter (fun a => a.userId == userId)

/-- BankAccountService.findOne: findFirst scoped by both id and userId;
a miss yields null, not an error (no existence check, no exception). -/
def findOne (db : DB) (userId : String) (id : String) : Option BankAccount :=
  db.bankAccounts.find? (fun a => a.id == id && a.userId == userId)

/-- Apply the update data to a stored bank account row. -/
def applyBankAccountUpdate (dto : UpdateBankAccountDto) (now : Nat)
    (a : BankAccount) : BankAccount :=
  { a with
    name := dto.name.getD a.name
    apiToken := dto.apiToken.getD a.apiToken
    accountStatus := dto.accountStatus.getD a.accountStatus
    connectionStatus := dto.connectionStatus.getD a.connectionStatus
    updatedAt := now }

/-- The bank_accounts table after the store update keyed by id. -/
def updatedBankAccounts (db : DB) (id : String) (dto : UpdateBankAccountDto)
    (now : Nat) : List BankAccount :=
  db.bankAccounts.map (fun a =>
    if a.id == id then applyBankAccountUpdate dto now a else a)

/-- BankAccountService.update: the store update is keyed by id alone
(not re-scoped by userId) and the service has no existence check and no
try/catch; when no row matches the id, the raw Prisma P2025 error
escapes. -/
def update (db : DB) (userId : String) (id : String)
    (dto : UpdateBankAccountDto) (now : Nat) :
    (Except AppError BankAccount) × DB :=
  match db.bankAccounts.find? (fun a => a.id == id) with
  | none => (Except.error (.prismaKnown "P2025"), db)
  | some _ =>
    match (updatedBankAccounts db id dto now).find? (fun a => a.id == id) with
    | none => (Except.error (.prismaKnown "P2025"), db)
    | some a =>
      (Except.ok a, { db with bankAccounts := updatedBankAccounts db id dto now })

/-- BankAccountService.remove: delete keyed by id alone, no existence
check and no try/catch; a missing row surfaces the raw Prisma P2025
error. -/
def remove (db : DB) (userId : String) (id : String) :
    (Except AppError Unit) × DB :=
  match db.bankAccounts.find? (fun a => a.id == id) with
  | none => (Except.error (.prismaKnown "P2025"), db)
  | some _ =>
    (Except.ok (),
      { db with bankAccounts := db.bankAccounts.filter (fun a => a.id != id) })

end BankAccountService

/-- CreateTransactionDto; the date crosses the boundary as an ISO string
and is converted by new Date(...), modelled as the temporal value
itself. -/
structure CreateTransactionDto where
  bankAccountId : String
  date : Nat
  amount : Int
  type : String
  categoryId : String
deriving DecidableEq, Repr

/-- UpdateTransactionDto: every field optional. -/
structure UpdateTransactionDto where
  bankAccountId : Option String := none
  date : Option Nat := none
  amount : Option Int := none
  type : Option String := none
  categoryId : Option String := none
deriving DecidableEq, Repr

/-- The include block of the transaction queries: join the category the
transaction references. -/
def joinCategory (db : DB) (t : Transaction) : TransactionWithCategory :=
  { txn := t, category := db.categories.find? (fun c => c.id == t.categoryId) }

/-- The orderBy date desc relation used by findByUserId. -/
def dateGe (t1 t2 : Transaction) : Prop :=
  t2.date ≤ t1.date

instance : DecidableRel dateGe := fun t1 t2 =>
  inferInstanceAs (Decidable (t2.date ≤ t1.date))

instance : IsTotal Transaction dateGe :=
  ⟨fun a b => (Nat.le_total b.date a.date).imp id id⟩

instance : IsTrans Transaction dateGe :=
  ⟨fun _ _ _ h1 h2 => Nat.le_trans h2 h1⟩

namespace TransactionsService

/-- TransactionsService.create: convert the incoming date and insert;
the P2002 branch of the catch block does not arise (no uniqueness
constraint on the table). -/
def create (db : DB) (dto : CreateTransactionDto) (freshId : String)
    (now : Nat) : (Except AppError Transaction) × DB :=
  let t : Transaction :=
    { id := freshId, bankAccountId := dto.bankAccountId, date := dto.date
      amount := dto.amount, type := dto.type, categoryId := dto.categoryId
      createdAt := now, updatedAt := now }
  (Except.ok t, { db with transactions := db.transactions ++ [t] })

/-- TransactionsService.findAll: page through the transactions with the
category joined in. -/
def findAll (db : DB) (skip take : Nat) : List TransactionWithCategory :=
  ((db.transactions.drop skip).take take).map (joinCategory db)

/-- The first hop of findByUserId: the ids of the bank accounts owned
by the given user. -/
def userBankAccountIds (db : DB) (userId : String) : List String :=
  (db.bankAccounts.filter (fun a => a.userId == userId)).map (fun a => a.id)

/-- TransactionsService.findByUserId: first fetch the ids of the bank
accounts owned by the user; when there are none return the empty list;
otherwise fetch the transactions whose bankAccountId is among that set,
ordered by date descending, paged by skip and take, with the category
joined in. -/
def findByUserId (db : DB) (userId : String) (skip take : Nat) :
    List TransactionWithCategory :=
  if (userBankAccountIds db userId).isEmpty then
    []
  else
    ((((db.transactions.filter (fun t =>
          (userBankAccountIds db userId).contains t.bankAccountId)).insertionSort
            dateGe).drop skip).take take).map
      (joinCategory db)

/-- TransactionsService.findOne: findUnique by id with the category
joined in; NotFoundException when no row matches, re-raised by the catch
block. -/
def findOne (db : DB) (id : String) : Except AppError TransactionWithCategory :=
  match db.transactions.find? (fun t => t.id == id) with
  | none => .error (.notFound ("Transaction with ID " ++ id ++ " not found"))
  | some t => .ok (joinCategory db t)

/-- The data object built by TransactionsService.update: the object
spread carries every supplied field and the date, if present, is
converted before the store call (identity on the modelled temporal
value). -/
def applyTransactionUpdate (dto : UpdateTransactionDto) (now : Nat)
    (t : Transaction) : Transaction :=
  { t with
    bankAccountId := dto.bankAccountId.getD t.bankAccountId
    date := dto.date.getD t.date
    amount := dto.amount.getD t.amount
    type := dto.type.getD t.type
    categoryId := dto.categoryId.getD t.categoryId
    updatedAt := now }

/-- The transactions table after the store update keyed by id. -/
def updatedTransactions (db : DB) (id : String) (dto : UpdateTransactionDto)
    (now : Nat) : List Transaction :=
  db.transactions.map (fun t =>
    if t.id == id then applyTransactionUpdate dto now t else t)

/-- TransactionsService.update: existence check via findOne first
(NotFoundException is re-raised); then the store update, returning the
result with the category joined in. -/
def update (db : DB) (id : String) (dto : UpdateTransactionDto)
    (now : Nat) : (Except AppError TransactionWithCategory) × DB :=
  match findOne db id with
  | .error e => (.error e, db)
  | .ok _ =>
    match (updatedTransactions db id dto now).find? (fun t => t.id == id) with
    | none =>
      (Except.error (.internalServerError "Error updating transaction"), db)
    | some t =>
      (Except.ok
          (joinCategory { db with transactions := updatedTransactions db id dto now } t),
        { db with transactions := updatedTransactions db id dto now })

/-- TransactionsService.remove: existence check via findOne, then
delete. -/
def remove (db : DB) (id : String) : (Except AppError Unit) × DB :=
  match findOne db id with
  | .error e => (.error e, db)
  | .ok _ =>
    (Except.ok (),
      { db with transactions := db.transactions.filter (fun t => t.id != id) })

end TransactionsService

/-! Concrete fixtures used by witnesses and counterexamples. -/

/-- A stored user whose password was hashed at creation. -/
def alice : User :=
  { id := "u1", email := "alice@example.com", name := "Alice"
    password := .hashed 7 "Right1234", createdAt := 0, updatedAt := 0 }

/-- A stored category. -/
def groceries : Category :=
  { id := "c1", name := "Groceries", color := "#00FF00"
    description := "food", createdAt := 0, updatedAt := 0 }

/-- A bank account owned by user u1. -/
def checkingAcct : BankAccount :=
  { id := "b1", userId := "u1", name := "Checking", apiToken := "tok1"
    accountStatus := "active", connectionStatus := "ok"
    createdAt := 0, updatedAt := 0 }

/-- A bank account owned by user u2. -/
def savingsAcct : BankAccount :=
  { id := "b2", userId := "u2", name := "Savings", apiToken := "tok2"
    accountStatus := "active", connectionStatus := "ok"
    createdAt := 0, updatedAt := 0 }

/-- A transaction on account b1 dated 5. -/
def txnA : Transaction :=
  { id := "t1", bankAccountId := "b1", date := 5, amount := 100
    type := "income", categoryId := "c1", createdAt := 0, updatedAt := 0 }

/-- A transaction on account b2 dated 9. -/
def txnB : Transaction :=
  { id := "t2", bankAccountId := "b2", date := 9, amount := -40
    type := "expense", categoryId := "c1", createdAt := 0, updatedAt := 0 }

/-- A transaction on account b1 dated 7. -/
def txnC : Transaction :=
  { id := "t3", bankAccountId := "b1", date := 7, amount := -3
    type := "expense", categoryId := "c1", createdAt := 0, updatedAt := 0 }

/-- The main concrete store fixture. -/
def exDB : DB :=
  { users := [alice], categories := [groceries]
    bankAccounts := [checkingAcct, savingsAcct]
    transactions := [txnA, txnB, txnC] }

/-- Rewrite every stored password by an arbitrary function; the public
outputs of the non-authentication user operations must not change under
this rewriting, which is the formal sense in which the password never
appears in them. -/
def scrubPasswords (g : User → StoredPassword) (db : DB) : DB :=
  { db with users := db.users.map (fun u => { u with password := g u }) }

/-- The transaction txnA after an update that supplies only a new
date. -/
def txnAupd : Transaction := { txnA with date := 11, updatedAt := 2 }

/-- The store after that update. -/
def exDBupd : DB := { exDB with transactions := [txnAupd, txnB, txnC] }

/-- Creation data for a second user. -/
def bobDto : CreateUserDto :=
  { name := "Bob", email := "bob@example.com", password := "Np12345678" }

/-- The row inserted for that creation (id u2, salt 4, time 6). -/
def bobRow : User :=
  { id := "u2", email := "bob@example.com", name := "Bob"
    password := .hashed 4 "Np12345678", createdAt := 6, updatedAt := 6 }

/-- The store after that creation. -/
def exDBwithBob : DB := { exDB with users := [alice, bobRow] }

/-- The stored user after an update that supplies the nonempty password
NewPw12345 (salt 4, time 6). -/
def aliceNewPwd : User :=
  { alice with password := .hashed 4 "NewPw12345", updatedAt := 6 }

/-- The store after that update. -/
def exDBNewPwd : DB := { exDB with users := [aliceNewPwd] }

/-- The stored user after an update that supplies the empty-string
password (salt 3, time 9): stored verbatim, unhashed. -/
def aliceEmptyPwd : User :=
  { alice with password := .raw "", updatedAt := 9 }

/-- The store after that update. -/
def exDBEmptyPwd : DB := { exDB with users := [aliceEmptyPwd] }

/-! Claim theorems. -/

/-- C3: findByUserId resolves in two hops: when the user owns no bank
account it returns the empty list (not an error); otherwise every
returned element is a transaction of the store whose bankAccountId is
among the ids of the bank accounts owned by the user, with its category
joined in, the output is ordered by date descending, and, over a page
covering the whole table, every such transaction is returned. -/
theorem findByUserId_spec (db : DB) (userId : String) (skip take : Nat) :
    (TransactionsService.userBankAccountIds db userId = [] →
      TransactionsService.findByUserId db userId skip take = [])
    ∧ List.Pairwise
        (fun x y : TransactionWithCategory => y.txn.date ≤ x.txn.date)
        (TransactionsService.findByUserId db userId skip take)
    ∧ (∀ x ∈ TransactionsService.findByUserId db userId skip take,
        (TransactionsService.userBankAccountIds db userId).contains
          x.txn.bankAccountId = true
        ∧ x.txn ∈ db.transactions
        ∧ x.category = db.categories.find? (fun c => c.id == x.txn.categoryId))
    ∧ (∀ t ∈ db.transactions,
        (TransactionsService.userBankAccountIds db userId).contains
          t.bankAccountId = true →
        joinCategory db t ∈
          TransactionsService.findByUserId db userId 0 db.transactions.length) := by
  refine ⟨fun h => ?_, ?_, fun x hx => ?_, fun t ht hc => ?_⟩
  · simp [TransactionsService.findByUserId, h]
  · unfold TransactionsService.findByUserId
    split
    · exact List.Pairwise.nil
    · rw [List.pairwise_map]
      exact List.Pairwise.sublist
        ((List.take_sublist _ _).trans (List.drop_sublist _ _))
        (List.sorted_insertionSort dateGe _)
  · unfold TransactionsService.findByUserId at hx
    split at hx
    · exact absurd hx (List.not_mem_nil x)
    · obtain ⟨t, ht, rfl⟩ := List.mem_map.1 hx
      have ht2 : t ∈ List.insertionSort dateGe
          (db.transactions.filter (fun t =>
            (TransactionsService.userBankAccountIds db userId).contains
              t.bankAccountId)) :=
        ((List.take_sublist _ _).trans (List.drop_sublist _ _)).mem ht
      have ht3 := List.mem_filter.1 ((List.mem_insertionSort dateGe).1 ht2)
      exact ⟨ht3.2, ht3.1, rfl⟩
  · unfold TransactionsService.findByUserId
    split
    · rename_i hemp
      rw [List.isEmpty_iff] at hemp
      rw [hemp] at hc
      exact absurd hc (by simp)
    · rw [List.drop_zero, List.take_of_length_le
        (le_of_eq_of_le (List.perm_insertionSort dateGe _).length_eq
          (List.length_filter_le _ _))]
      exact List.mem_map.2 ⟨t, (List.mem_insertionSort dateGe).2
        (List.mem_filter.2 ⟨ht, hc⟩), rfl⟩

/-- C3 witness: a user with no bank accounts gets the empty list, and a
transaction on an account of user u1 is returned for user u1. -/
theorem findByUserId_spec_app :
    TransactionsService.findByUserId exDB "u3" 0 10 = []
    ∧ joinCategory exDB txnA ∈ TransactionsService.findByUserId exDB "u1" 0 3 :=
  ⟨(findByUserId_spec exDB "u3" 0 10).1 rfl,
    (findByUserId_spec exDB "u1" 0 3).2.2.2 txnA (by simp [exDB]) rfl⟩

/-- C1: the claim says authenticating with a stored email and a wrong
password yields exactly the same Unauthorized outcome as authenticating
with an unknown email. In the code the UnauthorizedException thrown on
a password mismatch sits inside the try block whose catch rewraps every
error into InternalServerErrorException, so the two outcomes differ
observably: wrong password gives InternalServerErrorException, unknown
email gives UnauthorizedException. -/
theorem validateCredentials_wrong_password_diverges :
    UsersService.validateCredentials exDB "alice@example.com" "Wrong1234"
      = .error (.internalServerError "Error validating credentials")
    ∧ UsersService.validateCredentials exDB "ghost@example.com" "Wrong1234"
      = .error (.unauthorized "Invalid credentials") :=
  ⟨rfl, rfl⟩

/-- C9: the claim says NotFound raised below is re-raised unchanged
through every call layer. The categories service does raise NotFound on
a miss, but the controller layer catches every error, NotFound
included, and replaces it by InternalServerErrorException, although its
own ApiResponse annotations document a 404 for a missing category. -/
theorem categoriesController_downgrades_notFound :
    CategoriesService.findOne exDB "ghost"
      = .error (.notFound "Category with ID ghost not found")
    ∧ CategoriesController.findOne exDB "ghost"
      = .error (.internalServerError "Error finding category")
    ∧ (CategoriesController.update exDB "ghost" {} 1).1
      = .error (.internalServerError "Error updating category")
    ∧ (CategoriesController.remove exDB "ghost").1
      = .error (.internalServerError "Error deleting category") :=
  ⟨rfl, rfl, rfl, rfl⟩

/-- C4 counterexample: on the bank account service a nonexistent id
does not produce NotFound: findOne returns null (no error at all) and
update and remove surface the raw store error P2025 because the service
performs no existence check and has no catch block. -/
theorem bankAccount_missing_id_no_notFound :
    BankAccountService.findOne exDB "u1" "ghost" = none
    ∧ (BankAccountService.update exDB "u1" "ghost" {} 1).1
      = .error (.prismaKnown "P2025")
    ∧ (BankAccountService.remove exDB "u1" "ghost").1
      = .error (.prismaKnown "P2025") :=
  ⟨rfl, rfl, rfl⟩

/-- C4 amended: for the users, categories and transactions services,
get, update and remove on an id that matches no stored row fail with
NotFound regardless of the supplied fields; the bank account service
instead returns null from findOne and propagates the raw store error
P2025 from update and remove. -/
theorem missing_id_fails_notFound (db : DB) (id userId : String)
    (udto : UpdateUserDto) (cdto : UpdateCategoryDto)
    (tdto : UpdateTransactionDto) (bdto : UpdateBankAccountDto)
    (salt now : Nat) :
    (db.users.find? (fun u => u.id == id) = none →
      UsersService.findOne db id
          = .error (.notFound ("User with ID " ++ id ++ " not found"))
        ∧ (UsersService.update db id udto salt now).1
          = .error (.notFound ("User with ID " ++ id ++ " not found"))
        ∧ (UsersService.remove db id).1
          = .error (.notFound ("User with ID " ++ id ++ " not found")))
    ∧ (db.categories.find? (fun c => c.id == id) = none →
      CategoriesService.findOne db id
          = .error (.notFound ("Category with ID " ++ id ++ " not found"))
        ∧ (CategoriesService.update db id cdto now).1
          = .error (.notFound ("Category with ID " ++ id ++ " not found"))
        ∧ (CategoriesService.remove db id).1
          = .error (.notFound ("Category with ID " ++ id ++ " not found")))
    ∧ (db.transactions.find? (fun t => t.id == id) = none →
      TransactionsService.findOne db id
          = .error (.notFound ("Transaction with ID " ++ id ++ " not found"))
        ∧ (TransactionsService.update db id tdto now).1
          = .error (.notFound ("Transaction with ID " ++ id ++ " not found"))
        ∧ (TransactionsService.remove db id).1
          = .error (.notFound ("Transaction with ID " ++ id ++ " not found")))
    ∧ (db.bankAccounts.find? (fun a => a.id == id) = none →
      BankAccountService.findOne db userId id = none
        ∧ (BankAccountService.update db userId id bdto now).1
          = .error (.prismaKnown "P2025")
        ∧ (BankAccountService.remove db userId id).1
          = .error (.prismaKnown "P2025")) := by
  refine ⟨fun h => ?_, fun h => ?_, fun h => ?_, fun h => ?_⟩
  · exact ⟨by simp [UsersService.findOne, h],
      by simp [UsersService.update, UsersService.findOne, h],
      by simp [UsersService.remove, UsersService.findOne, h]⟩
  · exact ⟨by simp [CategoriesService.findOne, h],
      by simp [CategoriesService.update, CategoriesService.findOne, h],
      by simp [CategoriesService.remove, CategoriesService.findOne, h]⟩
  · exact ⟨by simp [TransactionsService.findOne, h],
      by simp [TransactionsService.update, TransactionsService.findOne, h],
      by simp [TransactionsService.remove, TransactionsService.findOne, h]⟩
  · have h2 : db.bankAccounts.find?
        (fun a => a.id == id && a.userId == userId) = none := by
      rw [List.find?_eq_none] at h ⊢
      intro a ha
      have := h a ha
      simp only [Bool.and_eq_true] at *
      exact fun hc => this hc.1
    exact ⟨by simp [BankAccountService.findOne, h2],
      by simp [BankAccountService.update, h],
      by simp [BankAccountService.remove, h]⟩

/-- C4 witness: the amended theorem applied at the concrete store and
the fresh id ghost. -/
theorem missing_id_fails_notFound_app :
    UsersService.findOne exDB "ghost"
      = .error (.notFound "User with ID ghost not found")
    ∧ BankAccountService.findOne exDB "u1" "ghost" = none :=
  ⟨((missing_id_fails_notFound exDB "ghost" "u1" {} {} {} {} 0 1).1 rfl).1,
    ((missing_id_fails_notFound exDB "ghost" "u1" {} {} {} {} 0 1).2.2.2 rfl).1⟩

/-- Helper: find? over a mapped list whose map leaves the predicate
unchanged. -/
theorem find_map_invariant {α : Type} (f : α → α) (p : α → Bool)
    (hp : ∀ a, p (f a) = p a) (l : List α) :
    (l.map f).find? p = (l.find? p).map f := by
  have hcomp : p ∘ f = p := funext hp
  rw [List.find?_map, hcomp]

/-- Helper: any over a mapped list whose map leaves the predicate
unchanged. -/
theorem any_map_invariant {α : Type} (f : α → α) (p : α → Bool)
    (hp : ∀ a, p (f a) = p a) (l : List α) :
    (l.map f).any p = l.any p := by
  have hcomp : p ∘ f = p := funext hp
  rw [List.any_map, hcomp]

/-- Helper: two maps that preserve the predicate and agree on a view at
every accepted element give the same selected find? result. -/
theorem find_map_sel {α β : Type} (f1 f2 : α → α) (p : α → Bool)
    (q : α → β) (hp1 : ∀ a, p (f1 a) = p a) (hp2 : ∀ a, p (f2 a) = p a)
    (hq : ∀ a, p a = true → q (f1 a) = q (f2 a)) (l : List α) :
    ((l.map f1).find? p).map q = ((l.map f2).find? p).map q := by
  rw [find_map_invariant f1 p hp1, find_map_invariant f2 p hp2]
  cases hf : l.find? p with
  | none => rfl
  | some a => simp [hq a (List.find?_some hf)]

/-- Helper: the id of the row produced by the keyed user update still
matches the key exactly when the original row did. -/
theorem user_update_row_id (udto : UpdateUserDto) (salt now : Nat)
    (id : String) (a : User) :
    ((if a.id == id then UsersService.applyUserUpdate udto salt now a
      else a).id == id) = (a.id == id) := by
  by_cases h : a.id == id
  · simp [h, UsersService.applyUserUpdate]
  · simp [h]

/-- Helper: findOne is invariant under rewriting stored passwords. -/
theorem findOne_scrub (g : User → StoredPassword) (db : DB) (id : String) :
    UsersService.findOne (scrubPasswords g db) id
      = UsersService.findOne db id := by
  have hfind : (db.users.map (fun u : User => { u with password := g u })).find?
      (fun u : User => u.id == id)
      = (db.users.find? (fun u : User => u.id == id)).map
        (fun u : User => { u with password := g u }) :=
    find_map_invariant (fun u : User => { u with password := g u })
      (fun u : User => u.id == id) (fun a => rfl) db.users
  unfold UsersService.findOne scrubPasswords
  dsimp only
  rw [hfind]
  cases db.users.find? (fun u : User => u.id == id) <;> rfl

/-- Helper: findOneByEmail is invariant under rewriting stored
passwords. -/
theorem findOneByEmail_scrub (g : User → StoredPassword) (db : DB)
    (email : String) :
    UsersService.findOneByEmail (scrubPasswords g db) email
      = UsersService.findOneByEmail db email := by
  have hfind : (db.users.map (fun u : User => { u with password := g u })).find?
      (fun u : User => u.email == email)
      = (db.users.find? (fun u : User => u.email == email)).map
        (fun u : User => { u with password := g u }) :=
    find_map_invariant (fun u : User => { u with password := g u })
      (fun u : User => u.email == email) (fun a => rfl) db.users
  unfold UsersService.findOneByEmail scrubPasswords
  dsimp only
  rw [hfind]
  cases db.users.find? (fun u : User => u.email == email) <;> rfl

/-- Helper: findAll is invariant under rewriting stored passwords. -/
theorem findAll_scrub (g : User → StoredPassword) (db : DB)
    (skip take : Nat) :
    UsersService.findAll (scrubPasswords g db) skip take
      = UsersService.findAll db skip take := by
  unfold UsersService.findAll scrubPasswords
  dsimp only
  rw [← List.map_drop, ← List.map_take, List.map_map]
  exact List.map_congr_left (fun a _ => rfl)

/-- Helper: the result component of create is invariant under rewriting
stored passwords of the store. -/
theorem create_scrub (g : User → StoredPassword) (db : DB)
    (dto : CreateUserDto) (freshId : String) (salt now : Nat) :
    (UsersService.create (scrubPasswords g db) dto freshId salt now).1
      = (UsersService.create db dto freshId salt now).1 := by
  have hany : (db.users.map (fun u : User => { u with password := g u })).any
      (fun u : User => u.email == dto.email)
      = db.users.any (fun u : User => u.email == dto.email) :=
    any_map_invariant (fun u : User => { u with password := g u })
      (fun u : User => u.email == dto.email) (fun a => rfl) db.users
  unfold UsersService.create scrubPasswords
  dsimp only
  rw [hany]
  cases db.users.any (fun u : User => u.email == dto.email) <;> rfl

/-- Helper: the result component of create does not depend on the
supplied plaintext password. -/
theorem create_password_irrelevant (db : DB) (dto : CreateUserDto)
    (p freshId : String) (salt now : Nat) :
    (UsersService.create db { dto with password := p } freshId salt now).1
      = (UsersService.create db dto freshId salt now).1 := by
  unfold UsersService.create
  cases db.users.any (fun u => u.email == dto.email) <;> rfl

/-- Helper: the public view of the keyed user update does not depend on
the stored password of the row. -/
theorem user_update_row_sel (udto : UpdateUserDto) (salt now : Nat)
    (id : String) (g : User → StoredPassword) (a : User)
    (ha : (a.id == id) = true) :
    selectPublic (if ({ a with password := g a } : User).id == id
        then UsersService.applyUserUpdate udto salt now
          { a with password := g a }
        else { a with password := g a })
      = selectPublic (if a.id == id
        then UsersService.applyUserUpdate udto salt now a else a) := by
  rw [if_pos (show (({ a with password := g a } : User).id == id) = true
    from ha), if_pos ha]
  rfl

/-- Helper: the result component of update is invariant under rewriting
stored passwords. -/
theorem update_scrub (g : User → StoredPassword) (db : DB) (id : String)
    (udto : UpdateUserDto) (salt now : Nat) :
    (UsersService.update (scrubPasswords g db) id udto salt now).1
      = (UsersService.update db id udto salt now).1 := by
  unfold UsersService.update
  rw [findOne_scrub]
  cases hf : UsersService.findOne db id with
  | error e => rfl
  | ok v =>
    have hE : UsersService.newEmailTaken (scrubPasswords g db) id udto
        = UsersService.newEmailTaken db id udto := by
      unfold UsersService.newEmailTaken scrubPasswords
      cases udto.email with
      | none => rfl
      | some e =>
        exact any_map_invariant (fun u => { u with password := g u })
          (fun v => v.id != id && v.email == e) (fun a => rfl) db.users
    rw [hE]
    cases UsersService.newEmailTaken db id udto with
    | true => rfl
    | false =>
      have hL : UsersService.updatedUsers (scrubPasswords g db) id udto salt now
          = db.users.map ((fun x : User =>
              if x.id == id then UsersService.applyUserUpdate udto salt now x
              else x) ∘ (fun u => { u with password := g u })) := by
        unfold UsersService.updatedUsers scrubPasswords
        rw [List.map_map]
      have hR : UsersService.updatedUsers db id udto salt now
          = db.users.map (fun x : User =>
              if x.id == id then UsersService.applyUserUpdate udto salt now x
              else x) := rfl
      have hsel := find_map_sel
        ((fun x : User =>
            if x.id == id then UsersService.applyUserUpdate udto salt now x
            else x) ∘ (fun u => { u with password := g u }))
        (fun x : User =>
            if x.id == id then UsersService.applyUserUpdate udto salt now x
            else x)
        (fun u => u.id == id) selectPublic
        (fun a => user_update_row_id udto salt now id
          { a with password := g a })
        (fun a => user_update_row_id udto salt now id a)
        (fun a ha => user_update_row_sel udto salt now id g a ha)
        db.users
      rw [← hL, ← hR] at hsel
      cases h1 : (UsersService.updatedUsers (scrubPasswords g db) id udto
          salt now).find? (fun u => u.id == id) with
      | none =>
        cases h2 : (UsersService.updatedUsers db id udto salt now).find?
            (fun u => u.id == id) with
        | none => rfl
        | some u => rw [h1, h2] at hsel; exact absurd hsel (by simp)
      | some u =>
        cases h2 : (UsersService.updatedUsers db id udto salt now).find?
            (fun u => u.id == id) with
        | none => rw [h1, h2] at hsel; exact absurd hsel (by simp)
        | some w =>
          rw [h1, h2] at hsel
          exact congrArg (fun r => ((Except.ok r, db) : _ × DB).1)
            (Option.some.inj hsel)

/-- C2: the password field never appears in a value returned by create,
findAll, findOne, update, or the password-free by-email lookup:
rewriting every stored password arbitrarily, or changing the supplied
plaintext of a create, leaves all those outputs unchanged, so no output
carries any information about a password. Only validateCredentials, the
internal authentication path, reads the stored hash. -/
theorem usersService_outputs_password_free (g : User → StoredPassword)
    (db : DB) (dto : CreateUserDto) (p freshId id email : String)
    (udto : UpdateUserDto) (skip take salt now : Nat) :
    UsersService.findAll (scrubPasswords g db) skip take
      = UsersService.findAll db skip take
    ∧ UsersService.findOne (scrubPasswords g db) id
      = UsersService.findOne db id
    ∧ UsersService.findOneByEmail (scrubPasswords g db) email
      = UsersService.findOneByEmail db email
    ∧ (UsersService.create (scrubPasswords g db) dto freshId salt now).1
      = (UsersService.create db dto freshId salt now).1
    ∧ (UsersService.create db { dto with password := p } freshId salt now).1
      = (UsersService.create db dto freshId salt now).1
    ∧ (UsersService.update (scrubPasswords g db) id udto salt now).1
      = (UsersService.update db id udto salt now).1 :=
  ⟨findAll_scrub g db skip take, findOne_scrub g db id,
    findOneByEmail_scrub g db email, create_scrub g db dto freshId salt now,
    create_password_irrelevant db dto p freshId salt now,
    update_scrub g db id udto salt now⟩

/-- C5: creating a user whose email is already stored fails with the
DuplicateEmail outcome (P2002 mapped to UnprocessableEntityException)
and leaves the store, hence the first record, unchanged. -/
theorem duplicate_email_create_rejected (db : DB) (dto : CreateUserDto)
    (freshId : String) (salt now : Nat) (u : User)
    (hu : u ∈ db.users) (he : u.email = dto.email) :
    UsersService.create db dto freshId salt now
      = (.error (.unprocessableEntity "Email is already in use"), db) := by
  have h : db.users.any (fun v => v.email == dto.email) = true :=
    List.any_eq_true.2 ⟨u, hu, by simp [he]⟩
  simp [UsersService.create, h]

/-- C5 witness: a second create with the email of the stored user is
rejected and the store is returned unchanged. -/
theorem duplicate_email_create_rejected_app :
    UsersService.create exDB
        { name := "Alice2", email := "alice@example.com", password := "Pw12345678" }
        "u9" 3 5
      = (.error (.unprocessableEntity "Email is already in use"), exDB) :=
  duplicate_email_create_rejected exDB
    { name := "Alice2", email := "alice@example.com", password := "Pw12345678" }
    "u9" 3 5 alice (by simp [exDB]) rfl

/-- C7: hashing a plaintext and verifying the original against the
digest succeeds, and verifying any different plaintext against the same
digest fails. -/
theorem bcrypt_roundtrip (salt : Nat) (p q : String) (h : q ≠ p) :
    bcryptCompare p (bcryptHash salt p) = true
    ∧ bcryptCompare q (bcryptHash salt p) = false := by
  refine ⟨by simp [bcryptCompare, bcryptHash], ?_⟩
  simp only [bcryptCompare, bcryptHash]
  exact beq_eq_false_iff_ne.2 (Ne.symm h)

/-- C7 witness: the round trip at a concrete salt and two concrete
plaintexts. -/
theorem bcrypt_roundtrip_app :
    bcryptCompare "Right1234" (bcryptHash 7 "Right1234") = true
    ∧ bcryptCompare "Wrong1234" (bcryptHash 7 "Right1234") = false :=
  bcrypt_roundtrip 7 "Right1234" "Wrong1234" (by decide)

/-- Helper: on a successful user update, every stored row matching the
key is the keyed update applied to a previously stored row. -/
theorem update_ok_mem (db : DB) (id : String) (udto : UpdateUserDto)
    (salt now : Nat) (w : UserPublic) (db2 : DB)
    (h : UsersService.update db id udto salt now = (.ok w, db2)) :
    ∀ v ∈ db2.users, v.id = id →
      ∃ u, u ∈ db.users ∧ v = UsersService.applyUserUpdate udto salt now u := by
  unfold UsersService.update at h
  cases hf : UsersService.findOne db id with
  | error e => rw [hf] at h; exact absurd h (by simp)
  | ok x =>
    rw [hf] at h
    by_cases hne : UsersService.newEmailTaken db id udto = true
    · rw [if_pos hne] at h
      exact absurd h (by simp)
    · rw [if_neg hne] at h
      cases hfind : (UsersService.updatedUsers db id udto salt now).find?
          (fun u => u.id == id) with
      | none => rw [hfind] at h; exact absurd h (by simp)
      | some u =>
        rw [hfind] at h
        have hdb2 : db2.users = UsersService.updatedUsers db id udto salt now := by
          have h2 := congrArg Prod.snd h
          dsimp only at h2
          rw [← h2]
        intro v hv hvid
        rw [hdb2] at hv
        obtain ⟨u0, hu0, hu0v⟩ := List.mem_map.1 hv
        by_cases hid : (u0.id == id) = true
        · rw [if_pos hid] at hu0v
          exact ⟨u0, hu0, hu0v.symm⟩
        · rw [if_neg hid] at hu0v
          rw [← hu0v] at hvid
          exact absurd (beq_iff_eq.2 hvid) hid

/-- C10: supplying the empty string as the password of an update stores
it verbatim as the persisted password, unhashed: the truthiness guard
skips the rehash for the falsy empty string while the object spread
still carries the raw field into the store write. -/
theorem update_empty_password_stored_verbatim (db : DB) (id : String)
    (udto : UpdateUserDto) (salt now : Nat) (w : UserPublic) (db2 : DB)
    (hp : udto.password = some "")
    (h : UsersService.update db id udto salt now = (.ok w, db2)) :
    ∀ v ∈ db2.users, v.id = id → v.password = .raw "" := by
  intro v hv hvid
  obtain ⟨u, hu, hv2⟩ := update_ok_mem db id udto salt now w db2 h v hv hvid
  subst hv2
  simp [UsersService.applyUserUpdate, UsersService.updateData, hp]

/-- C10 witness: the update applied to the concrete store at the empty
password stores the empty string verbatim. -/
theorem update_empty_password_stored_verbatim_app :
    aliceEmptyPwd.password = StoredPassword.raw "" :=
  update_empty_password_stored_verbatim exDB "u1" { password := some "" } 3 9
    { id := "u1", name := "Alice", email := "alice@example.com",
       createdAt := 0, updatedAt := 9 }
    exDBEmptyPwd rfl rfl aliceEmptyPwd (by simp [exDBEmptyPwd]) rfl

/-- C6 counterexample: an update whose fields include a password (the
empty string) succeeds yet stores the supplied plaintext verbatim,
without rehashing: the stored password equals the supplied plaintext,
refuting the claim as stated. -/
theorem update_empty_password_not_rehashed_ce :
    (UsersService.update exDB "u1" { password := some "" } 3 9).2.users.map
        (fun u => u.password) = [StoredPassword.raw ""]
    ∧ (UsersService.update exDB "u1" { password := some "" } 3 9).1
      = .ok { id := "u1", name := "Alice", email := "alice@example.com",
              createdAt := 0, updatedAt := 9 } :=
  ⟨rfl, rfl⟩

/-- C6 amended: create always hashes the supplied plaintext before the
row is inserted, an update whose supplied password is nonempty rehashes
it before the store is written, and a hash value is never the raw
plaintext; only the empty-string password of an update escapes the
rehash (see the C10 theorem). -/
theorem password_hashed_on_create_and_nonempty_update (db : DB)
    (dto : CreateUserDto) (freshId : String) (salt now : Nat)
    (id p : String) (udto : UpdateUserDto) :
    (∀ v db2, UsersService.create db dto freshId salt now = (.ok v, db2) →
      db2.users.getLast? = some { id := freshId, email := dto.email,
                                  name := dto.name,
                                  password := bcryptHash salt dto.password,
                                  createdAt := now, updatedAt := now })
    ∧ (udto.password = some p → p ≠ "" →
      ∀ w db2, UsersService.update db id udto salt now = (.ok w, db2) →
        ∀ v ∈ db2.users, v.id = id → v.password = bcryptHash salt p)
    ∧ (∀ q, bcryptHash salt q ≠ StoredPassword.raw q) := by
  refine ⟨fun v db2 h => ?_, fun hp hne w db2 h v hv hvid => ?_,
    fun q => by simp [bcryptHash]⟩
  · unfold UsersService.create at h
    by_cases hany : db.users.any (fun u => u.email == dto.email) = true
    · rw [if_pos hany] at h
      exact absurd h (by simp)
    · rw [if_neg hany] at h
      have h2 := congrArg Prod.snd h
      dsimp only at h2
      rw [← h2]
      exact List.getLast?_concat _
  · obtain ⟨u, hu, hv2⟩ := update_ok_mem db id udto salt now w db2 h v hv hvid
    subst hv2
    simp [UsersService.applyUserUpdate, UsersService.updateData, hp, hne,
      UsersService.hashPassword]

/-- C6 witness: the amended theorem applied at a concrete create and a
concrete nonempty-password update. -/
theorem password_hashed_on_create_and_nonempty_update_app :
    exDBwithBob.users.getLast? = some bobRow
    ∧ aliceNewPwd.password = bcryptHash 4 "NewPw12345" :=
  ⟨(password_hashed_on_create_and_nonempty_update exDB bobDto "u2" 4 6 "u1"
        "NewPw12345" { password := some "NewPw12345" }).1
      (selectPublic bobRow) exDBwithBob rfl,
    (password_hashed_on_create_and_nonempty_update exDB bobDto "u2" 4 6 "u1"
        "NewPw12345" { password := some "NewPw12345" }).2.1
      rfl (by decide) (selectPublic aliceNewPwd) exDBNewPwd rfl aliceNewPwd
      (by simp [exDBNewPwd]) rfl⟩

/-- Helper: the keyed transaction update preserves the key. -/
theorem txn_update_row_id (tdto : UpdateTransactionDto) (now : Nat)
    (id : String) (a : Transaction) :
    ((if a.id == id then TransactionsService.applyTransactionUpdate tdto now a
      else a).id == id) = (a.id == id) := by
  by_cases h : (a.id == id) = true
  · simp [h, TransactionsService.applyTransactionUpdate]
  · simp [h]

/-- Helper: the keyed category update preserves the key. -/
theorem cat_update_row_id (cdto : UpdateCategoryDto) (now : Nat)
    (id : String) (a : Category) :
    ((if a.id == id then CategoriesService.applyCategoryUpdate cdto now a
      else a).id == id) = (a.id == id) := by
  by_cases h : (a.id == id) = true
  · simp [h, CategoriesService.applyCategoryUpdate]
  · simp [h]

/-- Helper: the keyed bank account update preserves the key. -/
theorem acct_update_row_id (bdto : UpdateBankAccountDto) (now : Nat)
    (id : String) (a : BankAccount) :
    ((if a.id == id then BankAccountService.applyBankAccountUpdate bdto now a
      else a).id == id) = (a.id == id) := by
  by_cases h : (a.id == id) = true
  · simp [h, BankAccountService.applyBankAccountUpdate]
  · simp [h]

/-- C8: a partial update leaves unspecified fields unchanged on every
entity: the returned transaction carries the supplied field where one
was supplied and the prior stored value everywhere else, and likewise
for categories, bank accounts and the user view; in particular an
update supplying no amount, type, categoryId or bankAccountId alters
none of them. -/
theorem partial_update_frame (db : DB) (id userId : String)
    (tdto : UpdateTransactionDto) (cdto : UpdateCategoryDto)
    (bdto : UpdateBankAccountDto) (udto : UpdateUserDto) (salt now : Nat) :
    (∀ t0, db.transactions.find? (fun t => t.id == id) = some t0 →
      ∀ w db2, TransactionsService.update db id tdto now = (.ok w, db2) →
        w.txn.amount = tdto.amount.getD t0.amount
        ∧ w.txn.type = tdto.type.getD t0.type
        ∧ w.txn.categoryId = tdto.categoryId.getD t0.categoryId
        ∧ w.txn.bankAccountId = tdto.bankAccountId.getD t0.bankAccountId
        ∧ w.txn.date = tdto.date.getD t0.date
        ∧ w.txn.id = t0.id ∧ w.txn.createdAt = t0.createdAt)
    ∧ (∀ c0, db.categories.find? (fun c => c.id == id) = some c0 →
      ∀ w db2, CategoriesService.update db id cdto now = (.ok w, db2) →
        w.name = cdto.name.getD c0.name
        ∧ w.color = cdto.color.getD c0.color
        ∧ w.description = cdto.description.getD c0.description
        ∧ w.id = c0.id ∧ w.createdAt = c0.createdAt)
    ∧ (∀ a0, db.bankAccounts.find? (fun a => a.id == id) = some a0 →
      ∀ w db2, BankAccountService.update db userId id bdto now = (.ok w, db2) →
        w.name = bdto.name.getD a0.name
        ∧ w.apiToken = bdto.apiToken.getD a0.apiToken
        ∧ w.accountStatus = bdto.accountStatus.getD a0.accountStatus
        ∧ w.connectionStatus = bdto.connectionStatus.getD a0.connectionStatus
        ∧ w.userId = a0.userId ∧ w.id = a0.id)
    ∧ (∀ u0, db.users.find? (fun u => u.id == id) = some u0 →
      ∀ w db2, UsersService.update db id udto salt now = (.ok w, db2) →
        w.name = udto.name.getD u0.name
        ∧ w.email = udto.email.getD u0.email
        ∧ w.id = u0.id ∧ w.createdAt = u0.createdAt) := by
  refine ⟨fun t0 hft w db2 h => ?_, fun c0 hfc w db2 h => ?_,
    fun a0 hfa w db2 h => ?_, fun u0 hfu w db2 h => ?_⟩
  · have hfo : TransactionsService.findOne db id
        = .ok (joinCategory db t0) := by
      unfold TransactionsService.findOne
      rw [hft]
    have hupd : (TransactionsService.updatedTransactions db id tdto
          now).find? (fun t => t.id == id)
        = some (TransactionsService.applyTransactionUpdate tdto now t0) := by
      have hmap := find_map_invariant
        (fun t : Transaction => if t.id == id
          then TransactionsService.applyTransactionUpdate tdto now t else t)
        (fun t : Transaction => t.id == id)
        (fun a => txn_update_row_id tdto now id a) db.transactions
      unfold TransactionsService.updatedTransactions
      rw [hmap, hft]
      dsimp only [Option.map]
      rw [if_pos (List.find?_some hft)]
    unfold TransactionsService.update at h
    rw [hfo, hupd] at h
    have h1 := congrArg Prod.fst h
    dsimp only at h1
    have hw := (Except.ok.inj h1).symm
    rw [hw]
    exact ⟨rfl, rfl, rfl, rfl, rfl, rfl, rfl⟩
  · have hfo : CategoriesService.findOne db id = .ok c0 := by
      unfold CategoriesService.findOne
      rw [hfc]
    have hupd : (CategoriesService.updatedCategories db id cdto now).find?
          (fun c => c.id == id)
        = some (CategoriesService.applyCategoryUpdate cdto now c0) := by
      have hmap := find_map_invariant
        (fun c : Category => if c.id == id
          then CategoriesService.applyCategoryUpdate cdto now c else c)
        (fun c : Category => c.id == id)
        (fun a => cat_update_row_id cdto now id a) db.categories
      unfold CategoriesService.updatedCategories
      rw [hmap, hfc]
      dsimp only [Option.map]
      rw [if_pos (List.find?_some hfc)]
    unfold CategoriesService.update at h
    rw [hfo, hupd] at h
    have h1 := congrArg Prod.fst h
    dsimp only at h1
    have hw := (Except.ok.inj h1).symm
    rw [hw]
    exact ⟨rfl, rfl, rfl, rfl, rfl⟩
  · have hupd : (BankAccountService.updatedBankAccounts db id bdto now).find?
          (fun a => a.id == id)
        = some (BankAccountService.applyBankAccountUpdate bdto now a0) := by
      have hmap := find_map_invariant
        (fun a : BankAccount => if a.id == id
          then BankAccountService.applyBankAccountUpdate bdto now a else a)
        (fun a : BankAccount => a.id == id)
        (fun a => acct_update_row_id bdto now id a) db.bankAccounts
      unfold BankAccountService.updatedBankAccounts
      rw [hmap, hfa]
      dsimp only [Option.map]
      rw [if_pos (List.find?_some hfa)]
    unfold BankAccountService.update at h
    rw [hfa, hupd] at h
    have h1 := congrArg Prod.fst h
    dsimp only at h1
    have hw := (Except.ok.inj h1).symm
    rw [hw]
    exact ⟨rfl, rfl, rfl, rfl, rfl, rfl⟩
  · have hfo : UsersService.findOne db id = .ok (selectPublic u0) := by
      unfold UsersService.findOne
      rw [hfu]
    have hupd : (UsersService.updatedUsers db id udto salt now).find?
          (fun u => u.id == id)
        = some (UsersService.applyUserUpdate udto salt now u0) := by
      have hmap := find_map_invariant
        (fun u : User => if u.id == id
          then UsersService.applyUserUpdate udto salt now u else u)
        (fun u : User => u.id == id)
        (fun a => user_update_row_id udto salt now id a) db.users
      unfold UsersService.updatedUsers
      rw [hmap, hfu]
      dsimp only [Option.map]
      rw [if_pos (List.find?_some hfu)]
    unfold UsersService.update at h
    rw [hfo, hupd] at h
    by_cases hne : UsersService.newEmailTaken db id udto = true
    · rw [if_pos hne] at h
      exact absurd h (by simp)
    · rw [if_neg hne] at h
      have h1 := congrArg Prod.fst h
      dsimp only at h1
      have hw := (Except.ok.inj h1).symm
      rw [hw]
      exact ⟨rfl, rfl, rfl, rfl⟩

/-- C8 witness: an update supplying only a new date leaves amount,
type, categoryId and bankAccountId of the stored transaction
unchanged. -/
theorem partial_update_frame_app :
    ({ txn := txnAupd, category := some groceries } :
        TransactionWithCategory).txn.amount = 100 :=
  ((partial_update_frame exDB "t1" "u1" { date := some 11 } {} {} {} 0 2).1
    txnA rfl { txn := txnAupd, category := some groceries } exDBupd rfl).1

end Porcentagem
